import Mathlib

-- Verification development for the daggerobelus.com repository:
-- the templating/query core described in src/ai/context/technical/templating.md
-- and the query guide, plus the article-figure component (a concrete JS file).
-- The templating and query implementations live in external packages, so the
-- corresponding definitions are modelled from the repository documentation and
-- the specification; the article-figure component is translated from its source.

namespace Daggerobelus

-- Bracket characters, written via code points so that template source strings
-- can be assembled without brace literals.
def obrChar : Char := Char.ofNat 123

def cbrChar : Char := Char.ofNat 125

def obr : String := String.singleton obrChar

def cbr : String := String.singleton cbrChar

def quoteChar : Char := Char.ofNat 34

def aposChar : Char := Char.ofNat 39

-- List-based string helpers (kept definitionally reducible so that concrete
-- instances evaluate inside proofs).

def isSpaceChar (c : Char) : Bool :=
  c = ' ' || c = Char.ofNat 9 || c = Char.ofNat 10 || c = Char.ofNat 13

def trimL (l : List Char) : List Char :=
  ((l.dropWhile isSpaceChar).reverse.dropWhile isSpaceChar).reverse

def trimStr (s : String) : String := String.mk (trimL s.data)

def strStartsWith (s p : String) : Bool := List.isPrefixOf p.data s.data

def strEndsWith (s p : String) : Bool := List.isSuffixOf p.data s.data

def strDropN (s : String) (n : Nat) : String := String.mk (s.data.drop n)

/-- Split a character list into its maximal space-free words (the accumulator
holds the current word reversed). -/
def wordsAux : List Char → List Char → List String
  | [], acc => if acc.isEmpty then [] else String.mk acc.reverse :: []
  | c :: rest, acc =>
    if isSpaceChar c then
      if acc.isEmpty then wordsAux rest []
      else String.mk acc.reverse :: wordsAux rest []
    else wordsAux rest (c :: acc)

/-- Modelled from the spec: the dynamic values a template expression can
evaluate to in the data context (the JS implementation is not in the
repository). Covers null/undefined, booleans, numbers and strings, which is
what the documented truthiness and stringification rules distinguish. -/
inductive Value where
  | null
  | bool (b : Bool)
  | num (n : Int)
  | str (s : String)
deriving DecidableEq

/-- Modelled from the spec: JS truthiness as used by conditional rendering and
unquoted-attribute handling (null, false, 0 and the empty string are falsey). -/
def truthy : Value → Bool
  | Value.null => false
  | Value.bool b => b
  | Value.num n => n != 0
  | Value.str s => s != ""

/-- Modelled from the spec: stringification of an evaluated expression result
for insertion into rendered output (null renders as the empty string). -/
def toJSString : Value → String
  | Value.null => ""
  | Value.bool b => if b then ("true") else ("false")
  | Value.num n => toString n
  | Value.str s => s

-- HTML escaping (src/unnamed/part_003 documents escapeHTML; the
-- implementation is not in the repository, so the five entity rules come from
-- the spec: ampersand, less-than, greater-than, double and single quote).

/-- Modelled from the spec: escape a single character into its HTML entity,
or keep it unchanged. -/
def escapeCharL (c : Char) : List Char :=
  if c = '&' then ('&' :: 'a' :: 'm' :: 'p' :: ';' :: [])
  else if c = '<' then ('&' :: 'l' :: 't' :: ';' :: [])
  else if c = '>' then ('&' :: 'g' :: 't' :: ';' :: [])
  else if c = quoteChar then ('&' :: 'q' :: 'u' :: 'o' :: 't' :: ';' :: [])
  else if c = aposChar then ('&' :: '#' :: '3' :: '9' :: ';' :: [])
  else (c :: [])

def escapeL : List Char → List Char
  | [] => []
  | c :: rest => escapeCharL c ++ escapeL rest

/-- Modelled from the spec: escapeHTML from the utils package, entity-escaping
the five characters the spec names. -/
def escapeHTML (s : String) : String := String.mk (escapeL s.data)

/-- A character that must never appear raw in escaped output (the ampersand is
checked separately, since entities themselves contain it). -/
def isForbidden (c : Char) : Bool :=
  c = '<' || c = '>' || c = quoteChar || c = aposChar

/-- The entity tails that may legitimately follow an ampersand in escaped
output. -/
def entityTails : List (List Char) :=
  (('a' :: 'm' :: 'p' :: ';' :: []) ::
   ('l' :: 't' :: ';' :: []) ::
   ('g' :: 't' :: ';' :: []) ::
   ('q' :: 'u' :: 'o' :: 't' :: ';' :: []) ::
   ('#' :: '3' :: '9' :: ';' :: []) :: [])

/-- Every ampersand in the character list starts one of the five entities. -/
def ampEscaped : List Char → Bool
  | [] => true
  | c :: rest =>
    (if c = '&' then List.any entityTails (fun t => List.isPrefixOf t rest) else true)
      && ampEscaped rest

/-- Escaped-output safety: none of the four bracket/quote characters occur at
all, and every ampersand occurrence is the start of an entity. -/
def htmlSafe (s : String) : Bool :=
  (s.data.all (fun c => !(isForbidden c))) && ampEscaped s.data

-- Template error taxonomy (spec section 7; templating.md TemplateCompiler).

/-- Modelled from the spec: the template error taxonomy. MalformedTemplateError
and UnbalancedBlockError are compile-time; UnknownHelperError is
evaluation-time. UnbalancedBlockError names the offending tag and source
position, as the spec requires. -/
inductive TErr where
  | malformedTemplate (msg : String)
  | unbalancedBlock (tag : String) (pos : Nat)
  | unknownHelper (name : String)
deriving DecidableEq

/-- The compile-time members of the error taxonomy. -/
def isCompileTimeErr : TErr → Bool
  | TErr.malformedTemplate _ => true
  | TErr.unbalancedBlock _ _ => true
  | TErr.unknownHelper _ => false

-- Expression evaluation (spec section 4.1/4.3: Lisp-style helper calls resolved
-- by name at evaluation time against a registry; bare names read the data
-- context).

/-- A helper registry: name to pure function, or none for an unknown helper. -/
def Registry : Type := String → Option (List Value → Value)

/-- A data context: settings, state and methods flattened to name lookup. -/
def Ctx : Type := String → Value

/-- The space-separated words of an expression source string. -/
def exprWords (src : String) : List String :=
  wordsAux src.data []

/-- Modelled from the spec: evaluation of a (Lisp-style) expression string. A
single word reads the data context; several words call the named helper on the
context values of the arguments; an unknown helper name is an
UnknownHelperError at evaluation time. -/
def evalExpression (reg : Registry) (ctx : Ctx) (src : String) : Except TErr Value :=
  match exprWords src with
  | [] => Except.ok (Value.str "")
  | w :: [] => Except.ok (ctx w)
  | h :: a :: rest =>
    match reg h with
    | none => Except.error (TErr.unknownHelper h)
    | some f => Except.ok (f ((a :: rest).map ctx))

/-- The string an evaluated expression contributes to output: the stringified
value on success, empty on a (recoverable) evaluation error. -/
def renderValue (r : Except TErr Value) : String :=
  match r with
  | Except.ok v => toJSString v
  | Except.error _ => ""

/-- Truthiness of an evaluation result: a failed condition is falsey. -/
def truthyResult (r : Except TErr Value) : Bool :=
  match r with
  | Except.ok v => truthy v
  | Except.error _ => false

-- The AST (templating.md lines 447-488). The node kinds are the documented
-- ones: literal html fragments, expression nodes with the raw-output flag
-- (called unsafeHTML in the source), if/elseif/else chains, each blocks with
-- optional else content (an empty else list standing for an absent else),
-- rerender/guard blocks (one node type with a mode flag, as documented), and
-- partial (sub-template) references carrying their raw tag content. Mutual
-- inductives stand in for the nested node lists.

mutual

inductive Node where
  | html (s : String)
  | expr (value : String) (rawHTML : Bool)
  | ifNode (condition : String) (content : NodeList) (branches : BranchList)
  | eachNode (over : String) (content : NodeList) (elseContent : NodeList)
  | rerenderNode (guardMode : Bool) (expression : String) (content : NodeList)
  | templateNode (ref : String)

inductive NodeList where
  | nil
  | cons (head : Node) (tail : NodeList)

inductive Branch where
  | elseif (condition : String) (content : NodeList)
  | els (content : NodeList)

inductive BranchList where
  | nil
  | cons (head : Branch) (tail : BranchList)

end

def appendNL : NodeList → NodeList → NodeList
  | NodeList.nil, b => b
  | NodeList.cons n rest, b => NodeList.cons n (appendNL rest b)

def toNodeList : List Node → NodeList
  | [] => NodeList.nil
  | n :: rest => NodeList.cons n (toNodeList rest)

def toBranchList : List Branch → BranchList
  | [] => BranchList.nil
  | b :: rest => BranchList.cons b (toBranchList rest)

-- Rendering (spec section 4.2: render walks the AST against a data context;
-- templating.md Conditional Rendering lines 122-149; escaping rules lines
-- 79-84).

/-- Modelled from the spec: a data context for rendering. Besides name-to-value
lookup, it supplies, for each each-block header, the ordered list of child
data contexts of the iterated collection (one per item, carrying the item's
merged properties or as/index bindings, per spec section 4.1), abstracting the
reactive state model's collection values. -/
inductive DCtx where
  | mk (vals : String → Value) (items : String → List DCtx)

def DCtx.vals : DCtx → (String → Value)
  | DCtx.mk v _ => v

def DCtx.items : DCtx → (String → List DCtx)
  | DCtx.mk _ i => i

mutual

/-- Modelled from the spec: render one AST node against a data context. An
html node passes through verbatim; an expression node renders its evaluated
value, HTML-escaped unless the node carries the raw-output (unsafeHTML) flag;
an if node renders its main content when the condition is truthy and otherwise
falls through to its branches; an each node renders its content once per child
context of the iterated collection, in order, or its else content when the
collection is empty; a rerender/guard block renders its content (the mode flag
only affects update granularity, which a single render does not observe); a
partial renders the referenced sub-template, whose instantiation is outside
this model, so its output is not modelled (no claim concerns it). -/
def renderNode (reg : Registry) : Node → DCtx → String
  | Node.html s, _ => s
  | Node.expr v raw, ctx =>
    let out := renderValue (evalExpression reg ctx.vals v)
    if raw then out else escapeHTML out
  | Node.ifNode c content branches, ctx =>
    if truthyResult (evalExpression reg ctx.vals c) then renderNodes reg content ctx
    else renderBranches reg branches ctx
  | Node.eachNode over content elseContent, ctx =>
    match ctx.items over with
    | [] => renderNodes reg elseContent ctx
    | c :: cs => String.join ((c :: cs).map (fun c2 => renderNodes reg content c2))
  | Node.rerenderNode _ _ content, ctx => renderNodes reg content ctx
  | Node.templateNode _, _ => ""

/-- Render a node sequence: the concatenation of its nodes' renders. -/
def renderNodes (reg : Registry) : NodeList → DCtx → String
  | NodeList.nil, _ => ""
  | NodeList.cons n rest, ctx => renderNode reg n ctx ++ renderNodes reg rest ctx

/-- Render the elseif/else branches of an if chain, top to bottom: the first
truthy elseif wins, an else always wins, and an exhausted list renders
nothing. -/
def renderBranches (reg : Registry) : BranchList → DCtx → String
  | BranchList.nil, _ => ""
  | BranchList.cons (Branch.elseif c cs) rest, ctx =>
    if truthyResult (evalExpression reg ctx.vals c) then renderNodes reg cs ctx
    else renderBranches reg rest ctx
  | BranchList.cons (Branch.els cs) _, ctx => renderNodes reg cs ctx

end

/-- Render an optional selected branch content (none renders nothing). -/
def renderOpt (reg : Registry) : Option NodeList → DCtx → String
  | some cs, ctx => renderNodes reg cs ctx
  | none, _ => ""

/-- Stated from the spec's words, for comparison with the renderer: the first
branch of the elseif/else list, in source order, whose condition is truthy (an
else branch is unconditionally truthy). -/
def specSelectBranch (reg : Registry) (ctx : DCtx) : BranchList → Option NodeList
  | BranchList.nil => none
  | BranchList.cons (Branch.elseif c cs) rest =>
    if truthyResult (evalExpression reg ctx.vals c) then some cs
    else specSelectBranch reg ctx rest
  | BranchList.cons (Branch.els cs) _ => some cs

/-- Stated from the spec's words: the content of the first branch of the whole
if chain (main condition first, then the branches in source order) whose
condition evaluates truthy; none when no condition is truthy and no else
exists. -/
def specFirstTruthyBranch (reg : Registry) (ctx : DCtx) (c : String)
    (content : NodeList) (branches : BranchList) : Option NodeList :=
  if truthyResult (evalExpression reg ctx.vals c) then some content
  else specSelectBranch reg ctx branches

-- Attribute-context expression rendering (templating.md Boolean Attributes,
-- lines 86-109; spec section 4.1).

/-- An attribute rendered with an explicit quoted value. -/
def attrWithValue (name : String) (v : String) : String :=
  name ++ ("=") ++ String.singleton quoteChar ++ v ++ String.singleton quoteChar

/-- Modelled from the spec: a quoted-attribute expression always renders the
attribute with its result stringified, whatever the value. -/
def renderQuotedAttr (name : String) (v : Value) : String :=
  attrWithValue name (toJSString v)

/-- Modelled from the spec: an unquoted attribute expression. A falsey result
removes the attribute entirely; a truthy string result (strings are truthy
exactly when non-empty) becomes the attribute's value; any other truthy result
renders the bare attribute with no value. -/
def renderUnquotedAttr (name : String) (v : Value) : String :=
  if truthy v then
    match v with
    | Value.str s => attrWithValue name s
    | _ => name
  else ""

-- Data-attribute conversion (src/unnamed/part_002 lines 282-293; spec section
-- 6). The repository documents: data-item-id="123" stays the string "123",
-- data-amount="5" becomes the number 5, data-active="true" becomes true.

/-- kebabToCamel from the utils package documentation
(src/unnamed/part_003 lines 275-281): my-component-name to myComponentName. -/
def kebabToCamelL : Bool → List Char → List Char
  | _, [] => []
  | up, c :: rest =>
    if c = '-' then kebabToCamelL true rest
    else (if up then c.toUpper else c) :: kebabToCamelL false rest

def kebabToCamel (s : String) : String := String.mk (kebabToCamelL false s.data)

/-- A numeric-looking attribute value: non-empty and all digits. -/
def isNumericString (s : String) : Bool :=
  s != "" && s.data.all Char.isDigit

/-- An id-like data key, per the repository's documented example where
data-item-id keeps its string value: the camelCased key is id or ends in Id. -/
def idLikeKey (k : String) : Bool :=
  k = ("id") || strEndsWith k ("Id")

def strToInt (s : String) : Int := Int.ofNat (s.toNat?.getD 0)

/-- Modelled from the spec and src/unnamed/part_002 lines 282-293: automatic
type conversion of a data-* attribute value. The strings true and false become
booleans; a numeric-looking value becomes a number unless the key is id-like
(the repository documents data-item-id="123" staying the string "123" while
data-amount="5" becomes the number 5); everything else stays a string. -/
def convertDataValue (key : String) (raw : String) : Value :=
  if raw = ("true") then Value.bool true
  else if raw = ("false") then Value.bool false
  else if isNumericString raw && !(idLikeKey key) then Value.num (strToInt raw)
  else Value.str raw

/-- The camelCased key and converted value a data-* attribute contributes to
the handler's data object. -/
def dataAttrEntry (attrName : String) (raw : String) : String × Value :=
  (kebabToCamel attrName, convertDataValue (kebabToCamel attrName) raw)

-- The template compiler model (spec section 4.1; templating.md
-- TemplateCompiler, lines 430-501). Modelled from the spec: the
-- implementation is in an external package. The scanner splits source text
-- into literal text and bracketed tags, recording each tag's bracket dialect;
-- the parser builds the AST with a block stack. The model covers if blocks,
-- which is the block structure the claims exercise.

/-- A bracket dialect: single-bracket or double-bracket syntax. -/
inductive Dia where
  | single
  | double
deriving DecidableEq

/-- A scanned template token: literal text, or a tag with its dialect, its
inner content and its source position. -/
inductive Token where
  | text (s : String)
  | tag (d : Dia) (content : String) (pos : Nat)
deriving DecidableEq

/-- The scanner's mode: in literal text, just after an opening bracket, or
inside a single- or double-bracket tag (the double case tracks a pending
closing bracket). Accumulators are kept reversed. -/
inductive SMode where
  | inText (acc : List Char)
  | sawOpen (acc : List Char) (pos : Nat)
  | inSingle (tagAcc : List Char) (pos : Nat)
  | inDouble (tagAcc : List Char) (pos : Nat)
  | inDoubleClose (tagAcc : List Char) (pos : Nat)

structure ScanSt where
  mode : SMode
  toks : List Token
  idx : Nat

/-- Flush a pending (reversed) text accumulator onto the token list. -/
def flushText (acc : List Char) (toks : List Token) : List Token :=
  if acc = [] then toks else Token.text (String.mk acc.reverse) :: toks

/-- One scanner step over one source character. -/
def scanStep (st : ScanSt) (c : Char) : ScanSt :=
  match st.mode with
  | SMode.inText acc =>
    if c = obrChar then ScanSt.mk (SMode.sawOpen acc st.idx) st.toks (st.idx + 1)
    else ScanSt.mk (SMode.inText (c :: acc)) st.toks (st.idx + 1)
  | SMode.sawOpen acc pos =>
    if c = obrChar then ScanSt.mk (SMode.inDouble [] pos) (flushText acc st.toks) (st.idx + 1)
    else if c = cbrChar then
      ScanSt.mk (SMode.inText []) (Token.tag Dia.single ("") pos :: flushText acc st.toks) (st.idx + 1)
    else ScanSt.mk (SMode.inSingle (c :: []) pos) (flushText acc st.toks) (st.idx + 1)
  | SMode.inSingle tagAcc pos =>
    if c = cbrChar then
      ScanSt.mk (SMode.inText []) (Token.tag Dia.single (String.mk tagAcc.reverse) pos :: st.toks) (st.idx + 1)
    else ScanSt.mk (SMode.inSingle (c :: tagAcc) pos) st.toks (st.idx + 1)
  | SMode.inDouble tagAcc pos =>
    if c = cbrChar then ScanSt.mk (SMode.inDoubleClose tagAcc pos) st.toks (st.idx + 1)
    else ScanSt.mk (SMode.inDouble (c :: tagAcc) pos) st.toks (st.idx + 1)
  | SMode.inDoubleClose tagAcc pos =>
    if c = cbrChar then
      ScanSt.mk (SMode.inText []) (Token.tag Dia.double (String.mk tagAcc.reverse) pos :: st.toks) (st.idx + 1)
    else ScanSt.mk (SMode.inDouble (c :: cbrChar :: tagAcc) pos) st.toks (st.idx + 1)

/-- Scan a template source string into tokens; a bracket left open at the end
of input is a malformed template. -/
def scanTemplate (s : String) : Except String (List Token) :=
  let st := s.data.foldl scanStep (ScanSt.mk (SMode.inText []) [] 0)
  match st.mode with
  | SMode.inText acc => Except.ok (flushText acc st.toks).reverse
  | _ => Except.error ("unterminated bracket")

/-- The dialect of the first tag of the token stream, when any tag exists
(detectSyntax in templating.md lines 491-495; the source name ends in a
reserved word here, hence the rename). -/
def firstDialect : List Token → Option Dia
  | [] => none
  | Token.text _ :: rest => firstDialect rest
  | Token.tag d _ _ :: _ => some d

/-- A dialect conflict: some tag's bracket dialect differs from the detected
(first) dialect — bracket syntax must be consistent per source. -/
def dialectConflict (toks : List Token) : Bool :=
  match firstDialect toks with
  | none => false
  | some d =>
    toks.any (fun t =>
      match t with
      | Token.tag d2 _ _ => d2 != d
      | Token.text _ => false)

def msgDialect : String := "mixed bracket dialects"

/-- The block types the compiler's block stack tracks (spec section 4.1:
if, each, rerender and guard blocks push frames). -/
inductive BlockKind where
  | ifB
  | eachB
  | rerenderB
  | guardB
deriving DecidableEq

/-- The opening tag name of a block type. -/
def openTagName : BlockKind → String
  | BlockKind.ifB => ("#if")
  | BlockKind.eachB => ("#each")
  | BlockKind.rerenderB => ("#rerender")
  | BlockKind.guardB => ("#guard")

/-- The closing tag name of a block type. -/
def closeTagName : BlockKind → String
  | BlockKind.ifB => ("/if")
  | BlockKind.eachB => ("/each")
  | BlockKind.rerenderB => ("/rerender")
  | BlockKind.guardB => ("/guard")

/-- The kinds of tag content the parser distinguishes. -/
inductive TagKind where
  | openIf (cond : String)
  | openEach (over : String)
  | openRer (guardMode : Bool) (expression : String)
  | elseTag
  | elseifTag (cond : String)
  | closeBlock (bk : BlockKind)
  | htmlExpr (v : String)
  | partialTag (v : String)
  | plainExpr (v : String)
  | otherBlock (t : String)

/-- Classify a tag's (trimmed) content: block openings for if/each/rerender/
guard, else and elseif, the matching closing tags, raw-output expressions,
partial (sub-template) references, and plain expressions. An unknown tag
starting a block-like character classifies as otherBlock. -/
def classifyTag (content : String) : TagKind :=
  let c := trimStr content
  if strStartsWith c ("#if ") then TagKind.openIf (trimStr (strDropN c 4))
  else if strStartsWith c ("#each ") then TagKind.openEach (trimStr (strDropN c 6))
  else if strStartsWith c ("#rerender ") then TagKind.openRer false (trimStr (strDropN c 10))
  else if strStartsWith c ("#guard ") then TagKind.openRer true (trimStr (strDropN c 7))
  else if c = ("else") then TagKind.elseTag
  else if strStartsWith c ("else if ") then TagKind.elseifTag (trimStr (strDropN c 8))
  else if c = ("/if") then TagKind.closeBlock BlockKind.ifB
  else if c = ("/each") then TagKind.closeBlock BlockKind.eachB
  else if c = ("/rerender") then TagKind.closeBlock BlockKind.rerenderB
  else if c = ("/guard") then TagKind.closeBlock BlockKind.guardB
  else if strStartsWith c ("#html ") then TagKind.htmlExpr (trimStr (strDropN c 6))
  else if strStartsWith c (">") then TagKind.partialTag (trimStr (strDropN c 1))
  else if strStartsWith c ("#") || strStartsWith c ("/") then TagKind.otherBlock c
  else TagKind.plainExpr c

/-- Which part of an if frame the parser is currently filling. -/
inductive CurPart where
  | mainPart
  | elseifPart (cond : String)
  | elsePart

/-- An open block frame: an if frame carries its opening position, condition,
finished main content (reversed, once left), finished branches (reversed) and
the part being filled; an each frame carries its position, header and finished
main content once its else part has started; a rerender/guard frame carries
its position, mode and expression. -/
inductive Frame where
  | ifF (pos : Nat) (cond : String) (mainRev : Option (List Node))
      (branchesRev : List Branch) (cur : CurPart)
  | eachF (pos : Nat) (over : String) (mainRev : Option (List Node))
  | rerF (pos : Nat) (guardMode : Bool) (expression : String)

/-- The block type of a frame. -/
def frameKind : Frame → BlockKind
  | Frame.ifF _ _ _ _ _ => BlockKind.ifB
  | Frame.eachF _ _ _ => BlockKind.eachB
  | Frame.rerF _ g _ => if g then BlockKind.guardB else BlockKind.rerenderB

/-- The opening position of a frame. -/
def framePos : Frame → Nat
  | Frame.ifF p _ _ _ _ => p
  | Frame.eachF p _ _ => p
  | Frame.rerF p _ _ => p

/-- The parser state: the current (reversed) node accumulator and the stack of
open frames, each with the node accumulator of its enclosing context. -/
structure PState where
  accRev : List Node
  stack : List (Frame × List Node)

def initPState : PState := PState.mk [] []

/-- The block type of the innermost open frame, when one exists. -/
def topKindOf (st : PState) : Option BlockKind :=
  match st.stack with
  | [] => none
  | (f, _) :: _ => some (frameKind f)

/-- Build the node of a correctly closed frame from the current accumulator
and restore the enclosing context. -/
def closeFrame (f : Frame) (accRev : List Node) (saved : List Node)
    (rest : List (Frame × List Node)) : PState :=
  match f with
  | Frame.ifF _ cond mainRev branchesRev cur =>
    match (match cur with
           | CurPart.mainPart => (accRev, branchesRev)
           | CurPart.elseifPart c2 =>
             (mainRev.getD [], Branch.elseif c2 (toNodeList accRev.reverse) :: branchesRev)
           | CurPart.elsePart =>
             (mainRev.getD [], Branch.els (toNodeList accRev.reverse) :: branchesRev)) with
    | (mainFinal, branchesFinal) =>
      PState.mk
        (Node.ifNode cond (toNodeList mainFinal.reverse) (toBranchList branchesFinal.reverse)
          :: saved)
        rest
  | Frame.eachF _ over mainRev =>
    match mainRev with
    | none => PState.mk (Node.eachNode over (toNodeList accRev.reverse) NodeList.nil :: saved) rest
    | some m =>
      PState.mk (Node.eachNode over (toNodeList m.reverse) (toNodeList accRev.reverse) :: saved) rest
  | Frame.rerF _ g e =>
    PState.mk (Node.rerenderNode g e (toNodeList accRev.reverse) :: saved) rest

/-- One parser step over one token: push literal/expression/partial nodes,
push a frame on a block-opening tag, switch parts on else/elseif (else is
valid atop an if frame or an each frame without an else yet, elseif only atop
an if frame not yet in its else), and on a closing tag build the block's node
when the tag's type matches the innermost frame. A stray or mismatched
closing tag, and a misplaced else/elseif, are UnbalancedBlockError naming the
tag and position; an unknown block-like tag is MalformedTemplateError. -/
def parseStep (st : PState) (t : Token) : Except TErr PState :=
  match t with
  | Token.text s => Except.ok (PState.mk (Node.html s :: st.accRev) st.stack)
  | Token.tag _ content pos =>
    match classifyTag content with
    | TagKind.plainExpr v => Except.ok (PState.mk (Node.expr v false :: st.accRev) st.stack)
    | TagKind.htmlExpr v => Except.ok (PState.mk (Node.expr v true :: st.accRev) st.stack)
    | TagKind.partialTag v => Except.ok (PState.mk (Node.templateNode v :: st.accRev) st.stack)
    | TagKind.openIf c =>
      Except.ok (PState.mk []
        ((Frame.ifF pos c none [] CurPart.mainPart, st.accRev) :: st.stack))
    | TagKind.openEach over =>
      Except.ok (PState.mk [] ((Frame.eachF pos over none, st.accRev) :: st.stack))
    | TagKind.openRer g e =>
      Except.ok (PState.mk [] ((Frame.rerF pos g e, st.accRev) :: st.stack))
    | TagKind.elseTag =>
      match st.stack with
      | [] => Except.error (TErr.unbalancedBlock ("else") pos)
      | (f, saved) :: rest =>
        match f with
        | Frame.ifF fp cond mainRev branchesRev cur =>
          match cur with
          | CurPart.elsePart => Except.error (TErr.unbalancedBlock ("else") pos)
          | CurPart.mainPart =>
            Except.ok (PState.mk []
              ((Frame.ifF fp cond (some st.accRev) branchesRev CurPart.elsePart, saved) :: rest))
          | CurPart.elseifPart c2 =>
            Except.ok (PState.mk []
              ((Frame.ifF fp cond mainRev
                (Branch.elseif c2 (toNodeList st.accRev.reverse) :: branchesRev)
                CurPart.elsePart, saved) :: rest))
        | Frame.eachF fp over mainRev =>
          match mainRev with
          | some _ => Except.error (TErr.unbalancedBlock ("else") pos)
          | none =>
            Except.ok (PState.mk [] ((Frame.eachF fp over (some st.accRev), saved) :: rest))
        | Frame.rerF _ _ _ => Except.error (TErr.unbalancedBlock ("else") pos)
    | TagKind.elseifTag c =>
      match st.stack with
      | [] => Except.error (TErr.unbalancedBlock ("else if") pos)
      | (f, saved) :: rest =>
        match f with
        | Frame.ifF fp cond mainRev branchesRev cur =>
          match cur with
          | CurPart.elsePart => Except.error (TErr.unbalancedBlock ("else if") pos)
          | CurPart.mainPart =>
            Except.ok (PState.mk []
              ((Frame.ifF fp cond (some st.accRev) branchesRev (CurPart.elseifPart c), saved)
                :: rest))
          | CurPart.elseifPart c2 =>
            Except.ok (PState.mk []
              ((Frame.ifF fp cond mainRev
                (Branch.elseif c2 (toNodeList st.accRev.reverse) :: branchesRev)
                (CurPart.elseifPart c), saved) :: rest))
        | Frame.eachF _ _ _ => Except.error (TErr.unbalancedBlock ("else if") pos)
        | Frame.rerF _ _ _ => Except.error (TErr.unbalancedBlock ("else if") pos)
    | TagKind.closeBlock bk =>
      match st.stack with
      | [] => Except.error (TErr.unbalancedBlock (closeTagName bk) pos)
      | (f, saved) :: rest =>
        if frameKind f = bk then Except.ok (closeFrame f st.accRev saved rest)
        else Except.error (TErr.unbalancedBlock (closeTagName bk) pos)
    | TagKind.otherBlock tname => Except.error (TErr.malformedTemplate tname)

/-- Run the parser over a token stream. -/
def parseTokens : List Token → PState → Except TErr PState
  | [], st => Except.ok st
  | t :: ts, st =>
    match parseStep st t with
    | Except.error e => Except.error e
    | Except.ok st2 => parseTokens ts st2

/-- End of input: an open frame is an unclosed block, named with its opening
tag and position. -/
def finishParse (st : PState) : Except TErr (List Node) :=
  match st.stack with
  | [] => Except.ok st.accRev.reverse
  | (f, _) :: _ => Except.error (TErr.unbalancedBlock (openTagName (frameKind f)) (framePos f))

/-- Modelled from the spec: TemplateCompiler.compile — scan, detect dialect
conflicts, parse. A failure yields only an error, never a partial AST. -/
def compile (s : String) : Except TErr (List Node) :=
  match scanTemplate s with
  | Except.error msg => Except.error (TErr.malformedTemplate msg)
  | Except.ok toks =>
    if dialectConflict toks then Except.error (TErr.malformedTemplate msgDialect)
    else
      match parseTokens toks initPState with
      | Except.error e => Except.error e
      | Except.ok st => finishParse st

-- Concrete sample inputs for the compiler theorems.

def sampleTpl : String := ("hi ") ++ obr ++ ("name") ++ cbr

def sampleAST : List Node := Node.html ("hi ") :: Node.expr ("name") false :: []

def mixedTpl : String := obr ++ ("a") ++ cbr ++ obr ++ obr ++ ("b") ++ cbr ++ cbr

def toksMixed : List Token :=
  Token.tag Dia.single ("a") 0 :: Token.tag Dia.double ("b") 3 :: []

def unclosedTpl : String := obr ++ ("#if x") ++ cbr ++ ("content")

def balancedEachTpl : String :=
  obr ++ ("#each items") ++ cbr ++ ("x") ++ obr ++ ("/each") ++ cbr

def balancedEachAST : List Node :=
  Node.eachNode ("items") (NodeList.cons (Node.html ("x")) NodeList.nil) NodeList.nil :: []

def unclosedEachTpl : String := obr ++ ("#each items") ++ cbr

def toksUnclosedEach : List Token := Token.tag Dia.single ("#each items") 0 :: []

def stUnclosedEach : PState :=
  PState.mk [] ((Frame.eachF 0 ("items") none, ([] : List Node)) :: [])

def mismatchTpl : String := obr ++ ("#if x") ++ cbr ++ obr ++ ("/each") ++ cbr

def stIfOpen : PState :=
  PState.mk [] ((Frame.ifF 0 ("x") none [] CurPart.mainPart, ([] : List Node)) :: [])

def emptyDCtx : DCtx := DCtx.mk (fun _ => Value.null) (fun _ => [])

-- The dual query system (src/unnamed/part_001 lines 24-110 and 284-312; spec
-- section 4.4). Modelled from the spec: elements are trees with ordinary
-- (light-DOM) children and the contents of an optional open shadow root
-- (empty list standing for no shadow root). Selector matching is abstracted
-- as a predicate on elements, since the claim quantifies over selectors.

mutual

inductive Elem where
  | mk (tag : String) (children : ElemList) (shadow : ElemList)

inductive ElemList where
  | nil
  | cons (e : Elem) (rest : ElemList)

end

mutual

/-- Pre-order (document order) enumeration of an element and its light-DOM
descendants; shadow roots are never entered. -/
def lightEnum : Elem → List Elem
  | Elem.mk t cs sh => Elem.mk t cs sh :: lightEnumL cs

def lightEnumL : ElemList → List Elem
  | ElemList.nil => []
  | ElemList.cons e rest => lightEnum e ++ lightEnumL rest

end

/-- The tag of an element. -/
def tagOf : Elem → String
  | Elem.mk t _ _ => t

/-- A selector, modelled as a predicate on the element-intrinsic feature the
model carries (the tag); a CSS selector matches an element on its own
features, not on its shadow contents. -/
def Sel : Type := String → Bool

/-- Whether a selector matches an element. -/
def selMatches (sel : Sel) (e : Elem) : Bool := sel (tagOf e)

mutual

/-- Modelled from the spec: standard (non-piercing) query — matches among the
element and its light-DOM descendants in document order, never descending into
a shadow root. -/
def queryLightE (sel : Sel) : Elem → List Elem
  | Elem.mk t cs sh =>
    (if sel t then Elem.mk t cs sh :: [] else []) ++ queryLight sel cs

def queryLight (sel : Sel) : ElemList → List Elem
  | ElemList.nil => []
  | ElemList.cons e rest => queryLightE sel e ++ queryLight sel rest

end

mutual

/-- Remove every shadow root (recursively) from an element. -/
def stripShadows : Elem → Elem
  | Elem.mk t cs _ => Elem.mk t (stripShadowsL cs) ElemList.nil

def stripShadowsL : ElemList → ElemList
  | ElemList.nil => ElemList.nil
  | ElemList.cons e rest => ElemList.cons (stripShadows e) (stripShadowsL rest)

end

/-- The shadow phase of the deep query under a level: for every element in
document order, the deep matches of its shadow root's contents (light matches
of that shadow level first, then its own nested shadow phase), then the shadow
phases of the element's light children. -/
def shadowPhase (sel : Sel) : ElemList → List Elem
  | ElemList.nil => []
  | ElemList.cons (Elem.mk _ cs sh) rest =>
    (queryLight sel sh ++ shadowPhase sel sh) ++ shadowPhase sel cs ++ shadowPhase sel rest

/-- Modelled from the spec: the shadow-piercing query (pierceShadow true). All
light-DOM matches under the search root come first, in document order; then,
per element in document order, the recursive deep matches from that element's
open shadow root. -/
def queryDeep (sel : Sel) (l : ElemList) : List Elem :=
  queryLight sel l ++ shadowPhase sel l

/-- The enumeration the deep query filters: the light-DOM level in document
order, then per element the recursively flattened shadow contents. -/
def shadowEnum : ElemList → List Elem
  | ElemList.nil => []
  | ElemList.cons (Elem.mk _ cs sh) rest =>
    (lightEnumL sh ++ shadowEnum sh) ++ shadowEnum cs ++ shadowEnum rest

def deepEnum (l : ElemList) : List Elem :=
  lightEnumL l ++ shadowEnum l

-- onNext (src/unnamed/part_001 lines 415-463; spec sections 4.4 and 5).
-- Modelled from the spec: the implementation is external, so the
-- single-settlement promise is embedded as a state machine driven by the
-- sequence of matching-event arrivals and timeout expiry. Events are
-- identified by naturals and matched by an abstract predicate (event type and
-- optional delegation selector).

/-- The settlement of an onNext call: none while pending, some (some e) once
resolved with event e, some none once rejected by the timeout. -/
structure ONextState where
  settled : Option (Option Nat)
  listener : Bool
deriving DecidableEq

/-- The inputs that can reach a pending onNext: an event firing, or the
timeout expiring. -/
inductive OInput where
  | fire (e : Nat)
  | timeoutExp
deriving DecidableEq

def onNextInit : ONextState := ONextState.mk none true

/-- Modelled from the spec: one step of the onNext state machine. A settled
call ignores everything; a matching event resolves and removes the listener; a
non-matching event changes nothing; timeout expiry rejects and removes the
listener. -/
def onNextStep (m : Nat → Bool) (st : ONextState) (i : OInput) : ONextState :=
  if st.settled.isSome then st
  else
    match i with
    | OInput.fire e => if m e then ONextState.mk (some (some e)) false else st
    | OInput.timeoutExp => ONextState.mk (some none) false

def runFrom (m : Nat → Bool) (st : ONextState) (ins : List OInput) : ONextState :=
  ins.foldl (onNextStep m) st

/-- The state of an onNext call after a sequence of inputs. -/
def runONext (m : Nat → Bool) (ins : List OInput) : ONextState :=
  runFrom m onNextInit ins

/-- A sequence of inputs none of which can settle the call: no timeout expiry
and no matching event. -/
def noSettle (m : Nat → Bool) (ins : List OInput) : Bool :=
  ins.all (fun i =>
    match i with
    | OInput.fire e => !(m e)
    | OInput.timeoutExp => false)

-- The article-figure component (src/unnamed/part_006): the one claim-bearing
-- JavaScript file in the repository.

structure FigureImage where
  src : String
  alt : String
deriving DecidableEq

/-- The component settings that getImages and getSizeClass read
(src/unnamed/part_006, defaultSettings). -/
structure FigureSettings where
  src : String
  alt : String
  images : List FigureImage
  size : String
deriving DecidableEq

/-- getImages from src/unnamed/part_006 lines 27-37: the images array when
non-empty, else a singleton built from src/alt when src is truthy, else empty. -/
def getImages (settings : FigureSettings) : List FigureImage :=
  if settings.images.length > 0 then settings.images
  else if settings.src != "" then (FigureImage.mk settings.src settings.alt :: [])
  else []

/-- A value a JS bracket lookup on the sizes object literal can produce: one
of its own string properties, or an inherited Object.prototype member (a
function or object, truthy and not a string). -/
inductive JSProp where
  | strVal (s : String)
  | protoMember (name : String)
deriving DecidableEq

/-- JS truthiness of a looked-up property: a string is truthy when non-empty;
inherited Object.prototype members (functions, the prototype object) are
truthy. -/
def jsPropTruthy : JSProp → Bool
  | JSProp.strVal s => s != ""
  | JSProp.protoMember _ => true

/-- The member names every plain object literal inherits from
Object.prototype, which a bracket lookup finds via the prototype chain. -/
def objectProtoKey (k : String) : Bool :=
  (("constructor") :: ("toString") :: ("toLocaleString") :: ("valueOf") ::
   ("hasOwnProperty") :: ("isPrototypeOf") :: ("propertyIsEnumerable") ::
   ("__proto__") :: ("__defineGetter__") :: ("__defineSetter__") ::
   ("__lookupGetter__") :: ("__lookupSetter__") :: []).contains k

/-- The lookup sizes[size] from src/unnamed/part_006 lines 65-71: the object
literal's own four entries, else the inherited Object.prototype member when
the key names one (JS bracket lookup traverses the prototype chain), else
undefined (none). -/
def sizeLookup (size : String) : Option JSProp :=
  if size = ("small") then some (JSProp.strVal ("max-w-md mx-auto"))
  else if size = ("medium") then some (JSProp.strVal ("max-w-2xl mx-auto"))
  else if size = ("large") then some (JSProp.strVal ("max-w-4xl mx-auto"))
  else if size = ("full") then some (JSProp.strVal ("w-full -mx-6 md:mx-0"))
  else if objectProtoKey size then some (JSProp.protoMember size)
  else none

/-- getSizeClass from src/unnamed/part_006 lines 64-72: the lookup with the
JS or-fallback to the large class — a falsey lookup result (undefined, or an
empty-string value) falls back, a truthy one is returned as-is, including an
inherited Object.prototype member. -/
def getSizeClass (settings : FigureSettings) : JSProp :=
  match sizeLookup settings.size with
  | some v => if jsPropTruthy v then v else JSProp.strVal ("max-w-4xl mx-auto")
  | none => JSProp.strVal ("max-w-4xl mx-auto")

-- Theorems settling the claims.

/-- Escaped character lists are safe: no forbidden character at all, and every
ampersand begins one of the five entities. -/
theorem escapeL_safe (l : List Char) :
    ((escapeL l).all (fun c => !(isForbidden c)) = true) ∧ (ampEscaped (escapeL l) = true) := by
  induction l with
  | nil => exact ⟨rfl, rfl⟩
  | cons c rest ih =>
    rw [escapeL]
    constructor
    · rw [List.all_append]
      refine (Bool.and_eq_true _ _).mpr ⟨?_, ih.1⟩
      by_cases h1 : c = '&'
      · simp [escapeCharL, h1, isForbidden, quoteChar, aposChar]
      by_cases h2 : c = '<'
      · simp [escapeCharL, h1, h2, isForbidden, quoteChar, aposChar]
      by_cases h3 : c = '>'
      · simp [escapeCharL, h1, h2, h3, isForbidden, quoteChar, aposChar]
      by_cases h4 : c = quoteChar
      · simp [escapeCharL, h1, h2, h3, h4, isForbidden, quoteChar, aposChar]
      by_cases h5 : c = aposChar
      · simp [escapeCharL, h1, h2, h3, h4, h5, isForbidden, quoteChar, aposChar]
      · simp [escapeCharL, h1, h2, h3, h4, h5, isForbidden]
    · by_cases h1 : c = '&'
      · simp [escapeCharL, h1, ampEscaped, entityTails, List.isPrefixOf, ih.2]
      by_cases h2 : c = '<'
      · simp [escapeCharL, h1, h2, ampEscaped, entityTails, List.isPrefixOf, ih.2]
      by_cases h3 : c = '>'
      · simp [escapeCharL, h1, h2, h3, ampEscaped, entityTails, List.isPrefixOf, ih.2]
      by_cases h4 : c = quoteChar
      · simp [escapeCharL, h1, h2, h3, h4, ampEscaped, entityTails, List.isPrefixOf,
          quoteChar, ih.2]
      by_cases h5 : c = aposChar
      · simp [escapeCharL, h1, h2, h3, h4, h5, ampEscaped, entityTails, List.isPrefixOf,
          quoteChar, aposChar, ih.2]
      · simp [escapeCharL, h1, h2, h3, h4, h5, ampEscaped, ih.2]

/-- Escaping any string yields safe output. -/
theorem escapeHTML_safe (s : String) : htmlSafe (escapeHTML s) = true := by
  have h := escapeL_safe s.data
  exact (Bool.and_eq_true _ _).mpr ⟨h.1, h.2⟩

/-- C2: an expression not marked unsafe never contributes the characters
ampersand, less-than, greater-than, double quote or single quote unescaped to
the rendered output (the four bracket/quote characters never occur, and every
ampersand starts an entity); an expression marked unsafe passes its evaluated
markup through unmodified. -/
theorem expression_escaping (reg : Registry) (ctx : DCtx) (v : String) :
    htmlSafe (renderNode reg (Node.expr v false) ctx) = true ∧
    renderNode reg (Node.expr v true) ctx = renderValue (evalExpression reg ctx.vals v) := by
  constructor
  · simp [renderNode]
    exact escapeHTML_safe _
  · simp [renderNode]

/-- The branch fallthrough of the renderer agrees with the spec's first-truthy
selection over the elseif/else list. -/
theorem renderBranches_select (reg : Registry) (ctx : DCtx) :
    (bs : BranchList) →
      renderBranches reg bs ctx = renderOpt reg (specSelectBranch reg ctx bs) ctx
  | BranchList.nil => rfl
  | BranchList.cons (Branch.elseif c cs) rest => by
    by_cases h : truthyResult (evalExpression reg ctx.vals c)
    · simp [renderBranches, specSelectBranch, renderOpt, h]
    · simp only [renderBranches, specSelectBranch, if_neg h]
      exact renderBranches_select reg ctx rest
  | BranchList.cons (Branch.els cs) rest => rfl

/-- C1: evaluating an if/elseif/else chain against a data context renders
exactly the content selected by the spec rule — the first branch in source
order whose condition evaluates truthy, and nothing at all when no condition
is truthy and no else branch exists. -/
theorem if_chain_first_truthy (reg : Registry) (ctx : DCtx) (c : String)
    (content : NodeList) (branches : BranchList) :
    renderNode reg (Node.ifNode c content branches) ctx =
      renderOpt reg (specFirstTruthyBranch reg ctx c content branches) ctx := by
  by_cases h : truthyResult (evalExpression reg ctx.vals c)
  · simp [renderNode, specFirstTruthyBranch, renderOpt, h]
  · simp only [renderNode, specFirstTruthyBranch, if_neg h]
    exact renderBranches_select reg ctx branches

-- onNext lemmas.

theorem runFrom_cons (m : Nat → Bool) (st : ONextState) (i : OInput) (ins : List OInput) :
    runFrom m st (i :: ins) = runFrom m (onNextStep m st i) ins := rfl

/-- A settled onNext state absorbs every further input. -/
theorem runFrom_settled (m : Nat → Bool) (st : ONextState) (h : st.settled.isSome = true) :
    (ins : List OInput) → runFrom m st ins = st
  | [] => rfl
  | i :: ins => by
    have hstep : onNextStep m st i = st := by simp [onNextStep, h]
    rw [runFrom_cons, hstep]
    exact runFrom_settled m st h ins

/-- Inputs that cannot settle the call leave the state unchanged. -/
theorem runFrom_noSettle (m : Nat → Bool) (st : ONextState) :
    (ins : List OInput) → noSettle m ins = true → runFrom m st ins = st
  | [], _ => rfl
  | i :: ins, h => by
    rw [noSettle, List.all_cons, Bool.and_eq_true] at h
    have hstep : onNextStep m st i = st := by
      cases i with
      | fire e =>
        have hm : m e = false := by
          have := h.1
          simp at this
          exact this
        by_cases hs : st.settled.isSome <;> simp [onNextStep, hs, hm]
      | timeoutExp => simp at h
    rw [runFrom_cons, hstep]
    exact runFrom_noSettle m st ins h.2

/-- One step preserves the listener/settlement invariant. -/
theorem onNextStep_listener (m : Nat → Bool) (st : ONextState) (i : OInput)
    (h : st.listener = st.settled.isNone) :
    (onNextStep m st i).listener = (onNextStep m st i).settled.isNone := by
  by_cases hs : st.settled.isSome
  · simpa [onNextStep, hs] using h
  · cases i with
    | fire e => by_cases hm : m e <;> simp [onNextStep, hs, hm, h]
    | timeoutExp => simp [onNextStep, hs]

/-- The listener/settlement invariant holds after any run. -/
theorem runFrom_listener (m : Nat → Bool) (st : ONextState) (h : st.listener = st.settled.isNone) :
    (ins : List OInput) → (runFrom m st ins).listener = (runFrom m st ins).settled.isNone
  | [] => h
  | i :: ins => by
    rw [runFrom_cons]
    exact runFrom_listener m (onNextStep m st i) (onNextStep_listener m st i h) ins

/-- C6: an onNext call settles at most once — once settled its result never
changes under further events or timeouts; it resolves with the first matching
event when one precedes the timeout; it rejects when the timeout expires
before any matching event; and in both the resolve and the reject path the
installed listener is removed, the listener being present exactly while the
call is pending. -/
theorem onNext_settlement (m : Nat → Bool) :
    (∀ pre post r, (runONext m pre).settled = some r →
      (runONext m (pre ++ post)).settled = some r) ∧
    (∀ ins, (runONext m ins).listener = (runONext m ins).settled.isNone) ∧
    (∀ pre e post, noSettle m pre = true → m e = true →
      runONext m (pre ++ OInput.fire e :: post) = ONextState.mk (some (some e)) false) ∧
    (∀ pre post, noSettle m pre = true →
      runONext m (pre ++ OInput.timeoutExp :: post) = ONextState.mk (some none) false) := by
  refine ⟨?_, ?_, ?_, ?_⟩
  · intro pre post r h
    have hsome : (runONext m pre).settled.isSome = true := by rw [h]; rfl
    have : runONext m (pre ++ post) = runONext m pre := by
      rw [runONext, runFrom, List.foldl_append]
      exact runFrom_settled m _ hsome post
    rw [this, h]
  · intro ins
    exact runFrom_listener m onNextInit rfl ins
  · intro pre e post hpre hm
    rw [runONext, runFrom, List.foldl_append]
    have h1 : List.foldl (onNextStep m) onNextInit pre = onNextInit :=
      runFrom_noSettle m onNextInit pre hpre
    rw [h1]
    have h2 : onNextStep m onNextInit (OInput.fire e) = ONextState.mk (some (some e)) false := by
      simp [onNextStep, onNextInit, hm]
    show runFrom m (onNextStep m onNextInit (OInput.fire e)) post = _
    rw [h2]
    exact runFrom_settled m (ONextState.mk (some (some e)) false) rfl post
  · intro pre post hpre
    rw [runONext, runFrom, List.foldl_append]
    have h1 : List.foldl (onNextStep m) onNextInit pre = onNextInit :=
      runFrom_noSettle m onNextInit pre hpre
    rw [h1]
    have h2 : onNextStep m onNextInit OInput.timeoutExp = ONextState.mk (some none) false := by
      simp [onNextStep, onNextInit]
    show runFrom m (onNextStep m onNextInit OInput.timeoutExp) post = _
    rw [h2]
    exact runFrom_settled m (ONextState.mk (some none) false) rfl post

/-- Concrete instance of the onNext settlement theorem: a non-matching event,
then a matching one, then a late timeout — the call resolves with the
matching event and the listener is gone. -/
theorem onNext_settlement_witness :
    noSettle (fun e => e == 1) (OInput.fire 0 :: []) = true ∧
    runONext (fun e => e == 1)
        (OInput.fire 0 :: OInput.fire 1 :: OInput.timeoutExp :: []) =
      ONextState.mk (some (some 1)) false :=
  ⟨by decide,
   (onNext_settlement (fun e => e == 1)).2.2.1 (OInput.fire 0 :: []) 1
     (OInput.timeoutExp :: []) (by decide) (by decide)⟩

-- Query lemmas.

mutual

/-- The non-piercing query on one element filters its light-DOM pre-order
enumeration. -/
theorem queryLightE_filter (sel : Sel) :
    (e : Elem) → queryLightE sel e = (lightEnum e).filter (selMatches sel)
  | Elem.mk t cs sh => by
    by_cases h : sel t <;>
      simp [queryLightE, lightEnum, selMatches, tagOf, h, queryLight_filter sel cs]

/-- The non-piercing query on an element list filters its light-DOM
enumeration. -/
theorem queryLight_filter (sel : Sel) :
    (l : ElemList) → queryLight sel l = (lightEnumL l).filter (selMatches sel)
  | ElemList.nil => rfl
  | ElemList.cons e rest => by
    rw [queryLight, lightEnumL, List.filter_append, queryLightE_filter sel e,
      queryLight_filter sel rest]

end

mutual

/-- Stripping every shadow root commutes with the non-piercing query on one
element: shadow contents are invisible to it. -/
theorem queryLightE_strip (sel : Sel) :
    (e : Elem) → queryLightE sel (stripShadows e) = (queryLightE sel e).map stripShadows
  | Elem.mk t cs sh => by
    by_cases h : sel t <;>
      simp [stripShadows, queryLightE, h, queryLight_strip sel cs]

/-- Stripping every shadow root commutes with the non-piercing query on an
element list. -/
theorem queryLight_strip (sel : Sel) :
    (l : ElemList) → queryLight sel (stripShadowsL l) = (queryLight sel l).map stripShadows
  | ElemList.nil => rfl
  | ElemList.cons e rest => by
    rw [stripShadowsL, queryLight, queryLight, List.map_append, queryLightE_strip sel e,
      queryLight_strip sel rest]

end

/-- The shadow phase of the deep query filters the flattened shadow
enumeration. -/
theorem shadowPhase_filter (sel : Sel) :
    (l : ElemList) → shadowPhase sel l = (shadowEnum l).filter (selMatches sel)
  | ElemList.nil => rfl
  | ElemList.cons (Elem.mk t cs sh) rest => by
    rw [shadowPhase, shadowEnum]
    simp [List.filter_append, queryLight_filter sel sh, shadowPhase_filter sel sh,
      shadowPhase_filter sel cs, shadowPhase_filter sel rest]

/-- C5: a query without pierceShadow never matches elements inside a shadow
root — its results are exactly the selector filter of the light-DOM
(document-order) enumeration, and removing every shadow root changes nothing
(beyond the same removal inside the returned nodes); a query with pierceShadow
matches at the light-DOM level and inside every descendant open shadow root,
recursively and depth-first — its results are exactly the selector filter of
the deterministic flattened enumeration in which each level's light-DOM
elements precede the per-element shadow contents. -/
theorem query_shadow_piercing (sel : Sel) (l : ElemList) :
    queryLight sel (stripShadowsL l) = (queryLight sel l).map stripShadows ∧
    queryLight sel l = (lightEnumL l).filter (selMatches sel) ∧
    queryDeep sel l = (deepEnum l).filter (selMatches sel) := by
  refine ⟨queryLight_strip sel l, queryLight_filter sel l, ?_⟩
  rw [queryDeep, deepEnum, List.filter_append, queryLight_filter sel l, shadowPhase_filter sel l]

/-- C7: compilation is deterministic — two compilations of identical input
text yield structurally equal ASTs (the compiler is a pure function of the
source string, with no side effects in the embedding). -/
theorem compile_deterministic (s : String) (a b : List Node)
    (ha : compile s = Except.ok a) (hb : compile s = Except.ok b) : a = b := by
  rw [ha] at hb
  exact Except.ok.inj hb

/-- Concrete instance of the determinism theorem on a successfully compiling
template. -/
theorem compile_deterministic_witness :
    compile sampleTpl = Except.ok sampleAST ∧ sampleAST = sampleAST :=
  ⟨rfl, compile_deterministic sampleTpl sampleAST sampleAST rfl rfl⟩

-- Compiler error lemmas.

/-- Every parser-step error is a compile-time error (an UnbalancedBlockError
or a MalformedTemplateError), never an UnknownHelperError. -/
theorem parseStep_err (st : PState) (t : Token) (e : TErr)
    (h : parseStep st t = Except.error e) : isCompileTimeErr e = true := by
  unfold parseStep at h
  repeat' split at h
  all_goals first
    | exact Except.noConfusion h
    | (injection h with h2; subst h2; rfl)

/-- Every parser-run error is a compile-time error. -/
theorem parseTokens_err :
    (ts : List Token) → (st : PState) → (e : TErr) →
      parseTokens ts st = Except.error e → isCompileTimeErr e = true
  | [], _, _, h => by simp [parseTokens] at h
  | t :: ts, st, e, h => by
    rw [parseTokens] at h
    cases hstep : parseStep st t with
    | error e2 =>
      rw [hstep] at h
      injection h with h2
      subst h2
      exact parseStep_err st t e2 hstep
    | ok st2 =>
      rw [hstep] at h
      exact parseTokens_err ts st2 e h

/-- Concatenation distributes over node-sequence rendering. -/
theorem renderNodes_append (reg : Registry) (ctx : DCtx) :
    (a b : NodeList) →
      renderNodes reg (appendNL a b) ctx = renderNodes reg a ctx ++ renderNodes reg b ctx
  | NodeList.nil, b => by simp [appendNL, renderNodes]
  | NodeList.cons n rest, b => by
    simp only [appendNL, renderNodes]
    rw [renderNodes_append reg ctx rest b, String.append_assoc]

/-- A helper call whose name is not registered evaluates to
UnknownHelperError. -/
theorem evalExpression_unknown (reg : Registry) (ctx : Ctx) (src h a : String)
    (rest : List String) (hw : exprWords src = h :: a :: rest) (hreg : reg h = none) :
    evalExpression reg ctx src = Except.error (TErr.unknownHelper h) := by
  simp [evalExpression, hw, hreg]

/-- C8: every compile failure is a compile-time error (MalformedTemplateError
or UnbalancedBlockError, never UnknownHelperError), aborting without any
partial AST by the shape of the result; a dialect conflict is a
MalformedTemplateError; a block of any kind (if, each, rerender, guard) left
unclosed at end of input fails with UnbalancedBlockError naming its opening
tag and position, and a stray or mismatched closing tag fails with
UnbalancedBlockError naming it and its position; at evaluation time an
unknown helper raises UnknownHelperError, and the failing expression renders
as empty without affecting sibling content. -/
theorem template_error_taxonomy :
    (∀ s e, compile s = Except.error e → isCompileTimeErr e = true) ∧
    (∀ s toks, scanTemplate s = Except.ok toks → dialectConflict toks = true →
      compile s = Except.error (TErr.malformedTemplate msgDialect)) ∧
    (∀ s toks st f saved rest, scanTemplate s = Except.ok toks →
      dialectConflict toks = false → parseTokens toks initPState = Except.ok st →
      st.stack = (f, saved) :: rest →
      compile s = Except.error
        (TErr.unbalancedBlock (openTagName (frameKind f)) (framePos f))) ∧
    (∀ st d content pos bk, classifyTag content = TagKind.closeBlock bk →
      topKindOf st ≠ some bk →
      parseStep st (Token.tag d content pos) =
        Except.error (TErr.unbalancedBlock (closeTagName bk) pos)) ∧
    (∀ reg ctx src h a rest, exprWords src = h :: a :: rest → reg h = none →
      evalExpression reg ctx src = Except.error (TErr.unknownHelper h)) ∧
    (∀ reg ctx pre post src h a rest, exprWords src = h :: a :: rest → reg h = none →
      renderNodes reg (appendNL pre (NodeList.cons (Node.expr src false) post)) ctx =
        renderNodes reg pre ctx ++ renderNodes reg post ctx) := by
  refine ⟨?_, ?_, ?_, ?_, ?_, ?_⟩
  · intro s e h
    rw [compile] at h
    cases hscan : scanTemplate s with
    | error msg =>
      rw [hscan] at h
      dsimp only at h
      injection h with h2
      subst h2
      rfl
    | ok toks =>
      rw [hscan] at h
      dsimp only at h
      by_cases hconf : dialectConflict toks
      · rw [if_pos hconf] at h
        injection h with h2
        subst h2
        rfl
      · rw [if_neg hconf] at h
        cases hp : parseTokens toks initPState with
        | error e2 =>
          rw [hp] at h
          dsimp only at h
          injection h with h2
          subst h2
          exact parseTokens_err toks initPState e2 hp
        | ok st =>
          rw [hp] at h
          dsimp only at h
          rw [finishParse] at h
          cases hst : st.stack with
          | nil =>
            rw [hst] at h
            exact Except.noConfusion h
          | cons top rest =>
            rw [hst] at h
            cases top with
            | mk f saved =>
              dsimp only at h
              injection h with h2
              subst h2
              rfl
  · intro s toks hscan hconf
    rw [compile, hscan]
    dsimp only
    rw [if_pos hconf]
  · intro s toks st f saved rest hscan hconf hp hstack
    rw [compile, hscan]
    dsimp only
    rw [if_neg (by simp [hconf])]
    rw [hp]
    dsimp only
    rw [finishParse, hstack]
  · intro st d content pos bk hc htop
    unfold parseStep
    dsimp only
    rw [hc]
    dsimp only
    cases hstack : st.stack with
    | nil => rfl
    | cons top rest2 =>
      cases top with
      | mk f saved =>
        simp [topKindOf, hstack] at htop
        dsimp only
        rw [if_neg htop]
  · intro reg ctx src h a rest hw hreg
    exact evalExpression_unknown reg ctx src h a rest hw hreg
  · intro reg ctx pre post src h a rest hw hreg
    rw [renderNodes_append reg ctx pre (NodeList.cons (Node.expr src false) post)]
    have hbad : renderNode reg (Node.expr src false) ctx = "" := by
      simp [renderNode, evalExpression_unknown reg ctx.vals src h a rest hw hreg, renderValue]
      rfl
    simp only [renderNodes]
    rw [hbad]
    rfl

/-- Concrete instances of the error-taxonomy theorem: an unclosed if block is
an unbalanced-block compile error; mixing bracket dialects is a malformed
template; an unclosed each block is an unbalanced-block compile error naming
its opening tag; a closing each tag over an open if frame is an
unbalanced-block error, also through a whole compilation; a balanced each
block compiles (it is no error at all); an unregistered helper is an
evaluation-time UnknownHelperError; and a failing expression leaves its
siblings' rendering intact. -/
theorem template_error_taxonomy_witness :
    isCompileTimeErr (TErr.unbalancedBlock ("#if") 0) = true ∧
    compile mixedTpl = Except.error (TErr.malformedTemplate msgDialect) ∧
    compile unclosedEachTpl = Except.error (TErr.unbalancedBlock ("#each") 0) ∧
    parseStep stIfOpen (Token.tag Dia.single ("/each") 8) =
      Except.error (TErr.unbalancedBlock ("/each") 8) ∧
    compile mismatchTpl = Except.error (TErr.unbalancedBlock ("/each") 7) ∧
    compile balancedEachTpl = Except.ok balancedEachAST ∧
    evalExpression (fun _ => none) (fun _ => Value.null) ("frob x") =
      Except.error (TErr.unknownHelper ("frob")) ∧
    renderNodes (fun _ => none)
        (appendNL (NodeList.cons (Node.html ("a")) NodeList.nil)
          (NodeList.cons (Node.expr ("frob x") false)
            (NodeList.cons (Node.html ("b")) NodeList.nil))) emptyDCtx =
      renderNodes (fun _ => none) (NodeList.cons (Node.html ("a")) NodeList.nil) emptyDCtx ++
        renderNodes (fun _ => none) (NodeList.cons (Node.html ("b")) NodeList.nil) emptyDCtx :=
  ⟨template_error_taxonomy.1 unclosedTpl (TErr.unbalancedBlock ("#if") 0) rfl,
   template_error_taxonomy.2.1 mixedTpl toksMixed rfl (by decide),
   template_error_taxonomy.2.2.1 unclosedEachTpl toksUnclosedEach stUnclosedEach
     (Frame.eachF 0 ("items") none) [] [] rfl (by decide) rfl rfl,
   template_error_taxonomy.2.2.2.1 stIfOpen Dia.single ("/each") 8 BlockKind.eachB rfl
     (by decide),
   rfl,
   rfl,
   template_error_taxonomy.2.2.2.2.1 (fun _ => none) (fun _ => Value.null) ("frob x")
     ("frob") ("x") [] rfl rfl,
   template_error_taxonomy.2.2.2.2.2 (fun _ => none) emptyDCtx
     (NodeList.cons (Node.html ("a")) NodeList.nil)
     (NodeList.cons (Node.html ("b")) NodeList.nil)
     ("frob x") ("frob") ("x") [] rfl rfl⟩

/-- C9: in the article-figure component, getImages gives the images array
precedence over the single src/alt pair: it returns settings.images whenever
that array is non-empty, otherwise the one-element list built from src/alt
whenever settings.src is non-empty, and otherwise the empty list. -/
theorem getImages_precedence (s : FigureSettings) :
    (s.images ≠ [] → getImages s = s.images) ∧
    (s.images = [] → s.src ≠ "" → getImages s = (FigureImage.mk s.src s.alt :: [])) ∧
    (s.images = [] → s.src = "" → getImages s = []) := by
  refine ⟨?_, ?_, ?_⟩
  · intro h
    have hp : 0 < s.images.length := List.length_pos.mpr h
    simp [getImages, hp]
  · intro h1 h2
    simp [getImages, h1, h2]
  · intro h1 h2
    simp [getImages, h1, h2]

/-- Concrete instances of the getImages precedence theorem. -/
theorem getImages_precedence_witness :
    getImages (FigureSettings.mk ("pic.png") ("a photo") [] ("large")) =
      (FigureImage.mk ("pic.png") ("a photo") :: []) ∧
    getImages (FigureSettings.mk ("") ("") [] ("large")) = [] :=
  ⟨(getImages_precedence _).2.1 rfl (by decide),
   (getImages_precedence _).2.2 rfl rfl⟩

/-- C10, counterexample: getSizeClass does not return the large class for
every size outside small/medium/large/full — for the size "constructor" the
JS bracket lookup finds the inherited, truthy Object.prototype member, so the
or-fallback never fires and the inherited member is returned instead of the
large class string. -/
theorem getSizeClass_counterexample :
    ¬ (("constructor") = ("small") ∨ ("constructor") = ("medium") ∨
       ("constructor") = ("large") ∨ ("constructor") = ("full")) ∧
    getSizeClass (FigureSettings.mk ("") ("") [] ("constructor")) =
      JSProp.protoMember ("constructor") ∧
    getSizeClass (FigureSettings.mk ("") ("") [] ("constructor")) ≠
      JSProp.strVal ("max-w-4xl mx-auto") := by
  refine ⟨by decide, by decide, by decide⟩

/-- C10, amended: getSizeClass returns the large class string for every
settings.size outside small/medium/large/full that does not name an inherited
Object.prototype member; for a size naming an inherited Object.prototype
member the truthy inherited member itself is returned — in neither case is
the result an undefined value. -/
theorem getSizeClass_fallback_amended (s : FigureSettings)
    (h1 : s.size ≠ ("small")) (h2 : s.size ≠ ("medium"))
    (h3 : s.size ≠ ("large")) (h4 : s.size ≠ ("full")) :
    (objectProtoKey s.size = false →
      getSizeClass s = JSProp.strVal ("max-w-4xl mx-auto")) ∧
    (objectProtoKey s.size = true → getSizeClass s = JSProp.protoMember s.size) := by
  constructor
  · intro h5
    simp [getSizeClass, sizeLookup, h1, h2, h3, h4, h5]
  · intro h5
    simp [getSizeClass, sizeLookup, jsPropTruthy, h1, h2, h3, h4, h5]

/-- Concrete instances of the amended getSizeClass theorem: an unknown size
falls back to the large class; an inherited member name does not. -/
theorem getSizeClass_fallback_amended_witness :
    getSizeClass (FigureSettings.mk ("") ("") [] ("huge")) =
      JSProp.strVal ("max-w-4xl mx-auto") ∧
    getSizeClass (FigureSettings.mk ("") ("") [] ("toString")) =
      JSProp.protoMember ("toString") :=
  ⟨(getSizeClass_fallback_amended (FigureSettings.mk ("") ("") [] ("huge"))
      (by decide) (by decide) (by decide) (by decide)).1 (by decide),
   (getSizeClass_fallback_amended (FigureSettings.mk ("") ("") [] ("toString"))
      (by decide) (by decide) (by decide) (by decide)).2 (by decide)⟩

/-- C3: a quoted-attribute expression always renders the attribute with its
result stringified (including falsey results); an unquoted attribute
expression omits the attribute when the result is falsey, renders a bare
attribute when the result is truthy and not a (non-empty) string, and renders
the string as the attribute's value when the result is a non-empty string. -/
theorem attr_expression_rendering (name : String) (v : Value) :
    renderQuotedAttr name v = attrWithValue name (toJSString v) ∧
    (truthy v = false → renderUnquotedAttr name v = "") ∧
    (∀ s, v = Value.str s → s ≠ "" → renderUnquotedAttr name v = attrWithValue name s) ∧
    (truthy v = true → (∀ s, v ≠ Value.str s) → renderUnquotedAttr name v = name) := by
  refine ⟨rfl, ?_, ?_, ?_⟩
  · intro h
    simp [renderUnquotedAttr, h]
  · intro s hv hne
    subst hv
    simp [renderUnquotedAttr, truthy, hne]
  · intro ht hns
    cases v with
    | null => simp [truthy] at ht
    | bool b => simp [renderUnquotedAttr, ht]
    | num n => simp [renderUnquotedAttr, ht]
    | str s => exact absurd rfl (hns s)

/-- Concrete instances of the attribute-expression rendering theorem: a falsey
unquoted result removes the attribute, a truthy boolean renders it bare, and a
non-empty string becomes its value. -/
theorem attr_expression_rendering_witness :
    renderUnquotedAttr ("checked") (Value.bool false) = "" ∧
    renderUnquotedAttr ("checked") (Value.bool true) = ("checked") ∧
    renderUnquotedAttr ("role") (Value.str ("separator")) = attrWithValue ("role") ("separator") :=
  ⟨(attr_expression_rendering ("checked") (Value.bool false)).2.1 (by decide),
   (attr_expression_rendering ("checked") (Value.bool true)).2.2.2 (by decide)
     (fun s h => Value.noConfusion h),
   (attr_expression_rendering ("role") (Value.str ("separator"))).2.2.1 ("separator") rfl (by decide)⟩

/-- C4, counterexample: per the repository's documented conversion
(src/unnamed/part_002 lines 282-293), data-item-id="123" reaches the handler
as the string "123" under the camelCased key itemId, not as the number 123
the claim's example asserts. -/
theorem data_attr_conversion_counterexample :
    dataAttrEntry ("item-id") ("123") = (("itemId"), Value.str ("123")) ∧
    dataAttrEntry ("item-id") ("123") ≠ (("itemId"), Value.num 123) := by
  refine ⟨by decide, by decide⟩

/-- C4, amended: every data-* attribute reaches the handler under its
camelCased key; the strings true and false become booleans; a numeric-looking
value becomes a number unless the key is id-like (as documented for
data-item-id, whose value stays a string); every other value stays a string. -/
theorem data_attr_conversion_amended (attrName raw : String) :
    (dataAttrEntry attrName raw).1 = kebabToCamel attrName ∧
    (raw = ("true") → (dataAttrEntry attrName raw).2 = Value.bool true) ∧
    (raw = ("false") → (dataAttrEntry attrName raw).2 = Value.bool false) ∧
    (raw ≠ ("true") → raw ≠ ("false") → isNumericString raw = true →
      idLikeKey (kebabToCamel attrName) = false →
      (dataAttrEntry attrName raw).2 = Value.num (strToInt raw)) ∧
    (raw ≠ ("true") → raw ≠ ("false") →
      (isNumericString raw = false ∨ idLikeKey (kebabToCamel attrName) = true) →
      (dataAttrEntry attrName raw).2 = Value.str raw) := by
  refine ⟨rfl, ?_, ?_, ?_, ?_⟩
  · intro h
    simp [dataAttrEntry, convertDataValue, h]
  · intro h
    simp [dataAttrEntry, convertDataValue, h]
  · intro h1 h2 h3 h4
    simp [dataAttrEntry, convertDataValue, h1, h2, h3, h4]
  · intro h1 h2 h3
    rcases h3 with h3 | h3
    · simp [dataAttrEntry, convertDataValue, h1, h2, h3]
    · simp [dataAttrEntry, convertDataValue, h1, h2, h3]

/-- Concrete instances of the amended data-attribute conversion theorem:
data-amount="5" becomes a number, data-item-id="123" stays a string, and
data-active="true" becomes a boolean. -/
theorem data_attr_conversion_amended_witness :
    (dataAttrEntry ("amount") ("5")).2 = Value.num (strToInt ("5")) ∧
    (dataAttrEntry ("item-id") ("123")).2 = Value.str ("123") ∧
    (dataAttrEntry ("active") ("true")).2 = Value.bool true :=
  ⟨(data_attr_conversion_amended ("amount") ("5")).2.2.2.1
     (by decide) (by decide) (by decide) (by decide),
   (data_attr_conversion_amended ("item-id") ("123")).2.2.2.2
     (by decide) (by decide) (Or.inr (by decide)),
   (data_attr_conversion_amended ("active") ("true")).2.1 rfl⟩

end Daggerobelus
